import Mathlib

/-!
Verification of the extract-rename-subtitle scripts.

The development shallowly embeds the Python sources:

- subtitle_utils.py: the episode matcher that maps captured episode keys to
  video files, and the interactive confirmation gate;
- extract_subtitles.py: the subtitle-extraction planner and executor, and the
  attachment (font) extraction routine;
- rename_subtitles.py: the subtitle renamer.

Paths are modelled structurally (parent directory string plus file name), and
the relevant fragment of the pathlib name algebra (stem, suffix, suffixes) is
translated from CPython. Regular-expression patterns compiled in the sources
are translated as concrete matching functions with Python re.match semantics
(anchored at the start only, greedy leading dot-star that does not cross a
newline). Side effects (prints, subprocess runs, directory creation, renames,
the interactive prompt) are reified as an effect trace, and Python exceptions
as an optional error outcome accompanying the trace.
-/

namespace SubtitleTools

/-! ## Paths and the pathlib name algebra -/

/-- Index of the last occurrence of a dot in a character list, if any. -/
def lastDotIndex : List Char → Option Nat
  | [] => none
  | c :: rest =>
    match lastDotIndex rest with
    | some i => some (i + 1)
    | none => if c = '.' then some 0 else none

/-- CPython pathlib stem on a file name given as a character list: the name up
to the last dot, provided that dot is neither the first nor the last
character; otherwise the whole name. -/
def pyStemList (l : List Char) : List Char :=
  match lastDotIndex l with
  | some i => if 0 < i ∧ i + 1 < l.length then l.take i else l
  | none => l

/-- CPython pathlib suffix on a file name given as a character list. -/
def pySuffixList (l : List Char) : List Char :=
  match lastDotIndex l with
  | some i => if 0 < i ∧ i + 1 < l.length then l.drop i else []
  | none => []

/-- Split a character list on dots, the way Python str.split with a dot
separator does. -/
def splitOnDotList : List Char → List (List Char)
  | [] => [[]]
  | c :: rest =>
    let r := splitOnDotList rest
    if c = '.' then [] :: r
    else
      match r with
      | [] => [[c]]
      | h :: t => (c :: h) :: t

/-- CPython pathlib suffixes on a file name given as a character list: empty
when the name ends with a dot; otherwise strip leading dots and return one
dotted component per remaining dot-separated part after the first. -/
def pySuffixesList (l : List Char) : List (List Char) :=
  if l.getLast? = some '.' then []
  else (splitOnDotList (l.dropWhile (fun c => c = '.'))).tail.map (fun part => '.' :: part)

/-- Pathlib stem of a file name. -/
def pyStem (s : String) : String := String.mk (pyStemList s.toList)

/-- Pathlib suffix of a file name. -/
def pySuffix (s : String) : String := String.mk (pySuffixList s.toList)

/-- Pathlib suffixes of a file name. -/
def pySuffixes (s : String) : List String := (pySuffixesList s.toList).map String.mk

/-- A filesystem path, modelled as the string of its parent directory together
with its final name component. -/
structure PyPath where
  parent : String
  name : String
deriving Repr, DecidableEq

/-- Pathlib stem of a path. -/
def PyPath.stem (p : PyPath) : String := pyStem p.name

/-- String rendering of a path, as Python str on a Path. -/
def pyPathStr (p : PyPath) : String :=
  if p.parent = "" then p.name else p.parent ++ "/" ++ p.name

/-- Pathlib with_name: same parent, replaced final component. -/
def PyPath.withName (p : PyPath) (n : String) : PyPath := ⟨p.parent, n⟩

/-! ## Episode patterns -/

/-- An episode pattern, abstracted as what the scripts do with a compiled
pattern: re.match it against a stem and read capture group 1 on success. -/
abbrev EpPattern := String → Option String

/-- Python whitespace class over the ASCII range. -/
def isPyWS (c : Char) : Bool :=
  c = ' ' || c = '\t' || c = '\n' || c = '\r' || c = '\x0b' || c = '\x0c'

/-- Python digit class over the ASCII range. -/
def isPyDigit (c : Char) : Bool :=
  '0' ≤ c && c ≤ '9'

/-- Attempt to match the tail of the default pattern, whitespace then two
digits then whitespace, at the current position, capturing the digits. -/
def epTryHere : List Char → Option String
  | w :: d1 :: d2 :: w2 :: _ =>
    if isPyWS w && isPyDigit d1 && isPyDigit d2 && isPyWS w2 then
      some (String.mk [d1, d2])
    else none
  | _ => none

/-- Python re.match of the default episode pattern (dot-star, whitespace, two
captured digits, whitespace, dot-star) on a character list: the greedy
leading dot-star tries the rightmost viable split first and cannot consume a
newline. -/
def simpleEpMatchList : List Char → Option String
  | [] => none
  | c :: rest =>
    if c = '\n' then epTryHere (c :: rest)
    else
      match simpleEpMatchList rest with
      | some g => some g
      | none => epTryHere (c :: rest)

/-- The default episode pattern of subtitle_utils.py, a compiled regex of
dot-star, whitespace, two captured digits, whitespace, dot-star. -/
def simple_ep_pattern : EpPattern := fun s => simpleEpMatchList s.toList

/-- Attempt to match an opening bracket, two captured digits and a closing
bracket at the current position. -/
def brTryHere : List Char → Option String
  | b :: d1 :: d2 :: b2 :: _ =>
    if b = '[' && isPyDigit d1 && isPyDigit d2 && b2 = ']' then
      some (String.mk [d1, d2])
    else none
  | _ => none

/-- Python re.match of the bracketed episode pattern used by
rename_subtitles.py (dot-star, bracketed two captured digits, dot-star). -/
def bracketEpMatchList : List Char → Option String
  | [] => none
  | c :: rest =>
    if c = '\n' then brTryHere (c :: rest)
    else
      match bracketEpMatchList rest with
      | some g => some g
      | none => brTryHere (c :: rest)

/-- The bracketed two-digit episode pattern compiled in rename_subtitles.py. -/
def bracket_ep_pattern : EpPattern := fun s => bracketEpMatchList s.toList

/-! ## The episode dictionary -/

/-- An episode map, modelled as a Python dict from episode key to path:
an association list in insertion order with unique keys. -/
abbrev EpDict := List (String × PyPath)

/-- Python dict insertion: update an existing key in place, otherwise append
at the end. -/
def dictInsert : EpDict → String → PyPath → EpDict
  | [], k, v => [(k, v)]
  | (k', v') :: rest, k, v =>
    if k' = k then (k, v) :: rest else (k', v') :: dictInsert rest k v

/-- Python dict lookup. -/
def dictLookup : EpDict → String → Option PyPath
  | [], _ => none
  | (k', v') :: rest, k => if k' = k then some v' else dictLookup rest k

/-- Loop body of format_video_by_ep_collection_with_pattern: fold the video
collection in order, inserting the captured key when the pattern matches the
stem and skipping the video otherwise. -/
def formatVideoByEpAux (pat : EpPattern) : List PyPath → EpDict → EpDict
  | [], d => d
  | v :: rest, d =>
    match pat (pyStem v.name) with
    | some key => formatVideoByEpAux pat rest (dictInsert d key v)
    | none => formatVideoByEpAux pat rest d

/-- The episode matcher of subtitle_utils.py: build the episode map over an
initially empty dict. -/
def format_video_by_ep_collection_with_pattern (videos : List PyPath) (pat : EpPattern) : EpDict :=
  formatVideoByEpAux pat videos []

/-- The confirmation gate of subtitle_utils.py: empty input, Y or y accept. -/
def prompt_for_user_confirmation (userInput : String) : Bool :=
  userInput = "" || userInput = "Y" || userInput = "y"

/-! ## Effects and errors -/

/-- Python exceptions the scripts can raise: a dict lookup miss, the
ValueError of an unsupported codec, the FileExistsError of mkdir, the
AssertionError of the isinstance assert in extract_fonts, and the TypeError
that json.loads raises on the uncaptured (None) stdout of subprocess.run in
_get_video_info. -/
inductive PyErr where
  | keyError (key : String)
  | valueError
  | fileExistsError (path : String)
  | assertionError
  | typeError
deriving Repr, DecidableEq

/-- The side effects the scripts perform, reified as trace entries. -/
inductive Effect where
  | printLine (s : String)
  | printCmd (cmd : List String)
  | printRenamePair (oldName newName : String)
  | probeStreams (video : String)
  | promptUser (question : String)
  | runCmd (cmd : List String)
  | runCmdIn (dir : String) (cmd : List String)
  | makeDir (dir : String) (mode : Nat) (parents : Bool) (existOk : Bool)
  | renameFile (oldPath newPath : String)
deriving Repr, DecidableEq

/-- Effects that change filesystem state or run a planned command: executing a
command (plain or with a working directory), creating a directory, renaming a
file. Prints, stream probes and the prompt are read-only. -/
def isMutatingEffect : Effect → Bool
  | .runCmd _ => true
  | .runCmdIn _ _ => true
  | .makeDir _ _ _ _ => true
  | .renameFile _ _ => true
  | _ => false

/-! ## Subtitle extraction (extract_subtitles.py) -/

/-- Helper _get_sub_format of extract_subtitles: map the probed codec name to
an output format, raising ValueError on anything but subrip or ass. -/
def sub_format_of_codec (codec : String) : Except PyErr String :=
  if codec = "subrip" then .ok "srt"
  else if codec = "ass" then .ok "ass"
  else .error .valueError

/-- Helper _get_sub_stem of extract_subtitles: when the target episode map is
truthy (supplied and non-empty) and the origin stem matches the origin
pattern, index the map with the captured key (KeyError on a miss); otherwise
fall back to the origin stem. -/
def get_sub_stem (tgt? : Option EpDict) (pat : EpPattern) (v : PyPath) : Except PyErr String :=
  match tgt? with
  | none => .ok (pyStem v.name)
  | some tgt =>
    if tgt = [] then .ok (pyStem v.name)
    else
      match pat (pyStem v.name) with
      | some key =>
        match dictLookup tgt key with
        | some t => .ok (pyStem t.name)
        | none => .error (.keyError key)
      | none => .ok (pyStem v.name)

/-- The ffmpeg invocation extract_subtitles builds for one origin video, one
stream track and one output subtitle name. -/
def sub_extract_cmd (v : PyPath) (track : Int) (subName : String) : List String :=
  ["ffmpeg", "-i", pyPathStr v, "-n", "-codec", "copy", "-map",
   ":" ++ toString track, subName]

/-- Inner loop of extract_subtitles over the track dict items for one origin
video, under a total codec oracle standing in for parsed ffprobe output: the
program as written never reaches this loop with parsed output, because
_get_video_info raises TypeError first (see get_video_info_run); the oracle
model over-approximates the reachable traces and is used only for frame
properties that hold on every trace. Computes the output name (stem lookup
may raise KeyError, the codec oracle may yield an unsupported name, a
ValueError), echoes the command, appends it to the pending list. Returns the
effects, the pending commands and the propagated error, if any. -/
def planTracksSub (v : PyPath) (tgt? : Option EpDict) (pat : EpPattern)
    (probe : PyPath → Int → String) :
    List (Int × String) → List Effect × List (List String) × Option PyErr
  | [] => ([], [], none)
  | (track, lang) :: rest =>
    match get_sub_stem tgt? pat v with
    | .error e => ([], [], some e)
    | .ok stem =>
      match sub_format_of_codec (probe v track) with
      | .error e => ([], [], some e)
      | .ok fmt =>
        match planTracksSub v tgt? pat probe rest with
        | (effs, cmds, err?) =>
          (Effect.printCmd (sub_extract_cmd v track (stem ++ "." ++ lang ++ "." ++ fmt)) :: effs,
           sub_extract_cmd v track (stem ++ "." ++ lang ++ "." ++ fmt) :: cmds, err?)

/-- Outer loop of extract_subtitles over the origin videos, under the same
counterfactual total codec oracle as planTracksSub: probe the video streams,
then plan every track; an exception aborts the remaining videos. The program
as written aborts with TypeError already at the first video (see
get_video_info_run and extract_subtitles_actual_run); this over-approximate
model is kept for frame properties quantified over all of its traces. -/
def planVideosSub (tracks : List (Int × String)) (tgt? : Option EpDict) (pat : EpPattern)
    (probe : PyPath → Int → String) :
    List PyPath → List Effect × List (List String) × Option PyErr
  | [] => ([], [], none)
  | v :: rest =>
    match planTracksSub v tgt? pat probe tracks with
    | (effs, cmds, some e) => (Effect.probeStreams (pyPathStr v) :: effs, cmds, some e)
    | (effs, cmds, none) =>
      match planVideosSub tracks tgt? pat probe rest with
      | (effs2, cmds2, err?) =>
        (Effect.probeStreams (pyPathStr v) :: (effs ++ effs2), cmds ++ cmds2, err?)

/-- The extract_subtitles entry point under the counterfactual codec oracle:
plan all commands, prompt once, and on acceptance run every pending command
in order. Its traces are a superset of the behavior of the program as
written, whose only trace on non-empty input is the crash modelled by
extract_subtitles_actual_run; frame properties proved over every trace of
this model therefore cover the program. -/
def extract_subtitles_run (videos : List PyPath) (tracks : List (Int × String))
    (tgt? : Option EpDict) (pat : EpPattern) (probe : PyPath → Int → String)
    (userInput : String) : List Effect × Option PyErr :=
  match planVideosSub tracks tgt? pat probe videos with
  | (effs, _, some e) => (effs, some e)
  | (effs, pending, none) =>
    let effs := effs ++ [Effect.promptUser "Start subtitle extraction?"]
    if prompt_for_user_confirmation userInput then
      (effs ++ pending.map Effect.runCmd, none)
    else (effs, none)

/-- Faithful model of helper _get_video_info of extract_subtitles: ffprobe is
invoked by subprocess.run without capturing stdout, so the returned
CompletedProcess has stdout None, and json.loads(None) raises TypeError
unconditionally. The probe subprocess itself (a read-only inspection) does
run before the exception. -/
def get_video_info_run (v : PyPath) : List Effect × Option PyErr :=
  ([Effect.probeStreams (pyPathStr v)], some PyErr.typeError)

/-- Faithful model of extract_subtitles as written: the loop body's first
statement calls _get_video_info, which always raises TypeError (see
get_video_info_run), so a non-empty origin collection crashes at its first
video with no command planned, printed, prompted for or executed; an empty
collection skips the loop, prompts over an empty pending list and executes
nothing either way. The track selection, target map and episode pattern are
never consulted, since the crash precedes every use of them. -/
def extract_subtitles_actual_run (videos : List PyPath) (_tracks : List (Int × String))
    (_tgt? : Option EpDict) (_pat : EpPattern) (_userInput : String) :
    List Effect × Option PyErr :=
  match videos with
  | [] => ([Effect.promptUser "Start subtitle extraction?"], none)
  | v :: _ => get_video_info_run v

/-! ## Font extraction (extract_subtitles.py) -/

/-- The ffmpeg attachment-dump invocation extract_fonts builds for one video,
using the resolved absolute path of the video. -/
def font_extract_cmd (resolve : PyPath → String) (v : PyPath) : List String :=
  ["ffmpeg", "-dump_attachment:t", "", "-n", "-i", resolve v]

/-- Loop of extract_fonts over the videos: on the first iteration with no
font directory yet, derive it as the sibling of the video named fonts; echo
and append each attachment-dump command. -/
def fontsPlanAux (resolve : PyPath → String) :
    List PyPath → Option PyPath → Option PyPath × List Effect × List (List String)
  | [], fd? => (fd?, [], [])
  | v :: rest, fd? =>
    match fontsPlanAux resolve rest (some (fd?.getD (v.withName "fonts"))) with
    | (fdFinal, effs, cmds) =>
      (fdFinal, Effect.printCmd (font_extract_cmd resolve v) :: effs,
       font_extract_cmd resolve v :: cmds)

/-- The extract_fonts entry point: return immediately on an empty collection;
otherwise plan, prompt, and on acceptance create the destination directory
unless it already is a directory (mkdir is called with mode 755, parents true
and exist_ok true, so it raises FileExistsError exactly when the path exists
as a non-directory), then run every pending command with the destination as
working directory. The isDir and existsFs parameters are the filesystem
answers at confirmation time. -/
def extract_fonts_run (videos : List PyPath) (fontDir? : Option PyPath)
    (resolve : PyPath → String) (isDir existsFs : String → Bool)
    (userInput : String) : List Effect × Option PyErr :=
  if videos = [] then ([], none)
  else
    match fontsPlanAux resolve videos fontDir? with
    | (none, effs, _) => (effs, some .assertionError)
    | (some fd, effs, pending) =>
      let dirStr := pyPathStr fd
      let effs := effs ++ [Effect.promptUser ("Extract font to folder \"" ++ dirStr ++ "?\"")]
      if prompt_for_user_confirmation userInput then
        if isDir dirStr then
          (effs ++ pending.map (Effect.runCmdIn dirStr), none)
        else if existsFs dirStr then
          (effs, some (.fileExistsError dirStr))
        else
          (effs ++ [Effect.makeDir dirStr 755 true true]
                ++ pending.map (Effect.runCmdIn dirStr), none)
      else (effs, none)

/-! ## Subtitle renaming (rename_subtitles.py) -/

/-- New-name computation of rename_subtitles for one subtitle file: when the
stem matches the subtitle pattern and the captured key is in the episode map,
the matched video stem plus either a dot, the language tag and the subtitle
suffix (for a truthy language tag) or the joined suffixes of the subtitle. -/
def sub_new_name (epMap : EpDict) (pat : EpPattern) (lang : String)
    (subFile : PyPath) : Option String :=
  match pat (pyStem subFile.name) with
  | none => none
  | some key =>
    match dictLookup epMap key with
    | none => none
    | some video =>
      let suffixPart :=
        if lang = "" then String.join (pySuffixes subFile.name)
        else "." ++ lang ++ pySuffix subFile.name
      some (pyStem video.name ++ suffixPart)

/-- The rename_subtitles entry point over the glob snapshot of the working
directory: print the header, plan and print each (old name, new name) pair,
prompt once, and on acceptance rename every planned file in list order. -/
def rename_subtitles_run (epMap : EpDict) (subFiles : List PyPath)
    (pat : EpPattern) (lang : String) (userInput : String) : List Effect :=
  let pending := subFiles.filterMap
    (fun f => (sub_new_name epMap pat lang f).map (fun n => (f, n)))
  let effs := Effect.printLine "Subtitles matched; Subtitles new name:" ::
    pending.map (fun p => Effect.printRenamePair p.1.name p.2)
    ++ [Effect.promptUser "Apply renaming?"]
  if prompt_for_user_confirmation userInput then
    effs ++ pending.map (fun p => Effect.renameFile (pyPathStr p.1) (pyPathStr (p.1.withName p.2)))
  else effs

/-! ## Specification-side definitions, for comparison with the code -/

/-- Modelled from the spec: the proposed rename name, the matched video stem
plus either a dot, the language tag and the subtitle final suffix, or the
full original suffix chain of the subtitle. -/
def specNewName (video : PyPath) (lang : String) (subFile : PyPath) : String :=
  if lang = "" then pyStem video.name ++ String.join (pySuffixes subFile.name)
  else pyStem video.name ++ "." ++ lang ++ pySuffix subFile.name

/-- Modelled from the spec: the stem contains two digits with a whitespace
character immediately before them and a whitespace character immediately
after them. -/
def specHasFlankedDigits : List Char → Bool
  | w :: d1 :: d2 :: w2 :: rest =>
    (isPyWS w && isPyDigit d1 && isPyDigit d2 && isPyWS w2)
      || specHasFlankedDigits (d1 :: d2 :: w2 :: rest)
  | _ => false

/-- Decomposition of a character list witnessing a match of the default
episode pattern: a newline-free prefix, then whitespace, two digits and
whitespace, with the digits as the captured group. -/
def FlankedDecomp (l : List Char) (g : String) : Prop :=
  ∃ pre w d1 d2 w2 rest, l = pre ++ w :: d1 :: d2 :: w2 :: rest ∧
    (∀ c ∈ pre, c ≠ '\n') ∧ isPyWS w = true ∧ isPyDigit d1 = true ∧
    isPyDigit d2 = true ∧ isPyWS w2 = true ∧ g = String.mk [d1, d2]

/-! ## Theorems -/

/-- Python dict lookup after insertion: the inserted key reads back the new
value, every other key is unchanged. -/
theorem dictLookup_insert (d : EpDict) (k q : String) (v : PyPath) :
    dictLookup (dictInsert d k v) q = if k = q then some v else dictLookup d q := by
  induction d with
  | nil => by_cases h : k = q <;> simp [dictInsert, dictLookup, h]
  | cons p rest ih =>
    obtain ⟨a, b⟩ := p
    by_cases hak : a = k
    · subst hak
      by_cases hq : a = q <;> simp [dictInsert, dictLookup, hq]
    · by_cases haq : a = q
      · subst haq
        simp [dictInsert, dictLookup, hak, Ne.symm hak]
      · simp [dictInsert, dictLookup, hak, haq, ih]

/-- Last element of a cons cell, as an eliminator on the last of the tail. -/
theorem getLast?_cons_elim {α : Type} (a : α) (l : List α) :
    (a :: l).getLast? = (l.getLast?).elim (some a) some := by
  induction l generalizing a with
  | nil => rfl
  | cons b t ih =>
    rw [List.getLast?_cons_cons, ih b]
    cases t.getLast? <;> rfl

/-- Folding the matcher loop over a video list: looking a key up in the
result gives the last video whose captured key equals it, and otherwise
whatever the accumulator dict gave. -/
theorem formatVideoByEpAux_lookup (pat : EpPattern) (k : String) :
    ∀ (videos : List PyPath) (d : EpDict),
      dictLookup (formatVideoByEpAux pat videos d) k =
        ((videos.filter (fun v => pat (pyStem v.name) = some k)).getLast?).elim
          (dictLookup d k) some
  | [], d => by simp [formatVideoByEpAux]
  | v :: rest, d => by
    cases h : pat (pyStem v.name) with
    | none =>
      have hf : (decide (pat (pyStem v.name) = some k)) = false := by simp [h]
      rw [formatVideoByEpAux]
      simp only [h, List.filter_cons, hf, if_neg Bool.false_ne_true]
      exact formatVideoByEpAux_lookup pat k rest d
    | some key =>
      rw [formatVideoByEpAux]
      simp only [h]
      rw [formatVideoByEpAux_lookup pat k rest (dictInsert d key v), dictLookup_insert]
      by_cases hk : key = k
      · subst hk
        have hf : (decide (pat (pyStem v.name) = some key)) = true := by simp [h]
        simp only [List.filter_cons, hf, if_true, if_pos rfl, getLast?_cons_elim]
        cases (rest.filter (fun w => decide (pat (pyStem w.name) = some key))).getLast? <;> simp
      · have hf : (decide (pat (pyStem v.name) = some k)) = false := by simp [h, hk]
        simp only [List.filter_cons, hf, Bool.false_eq_true, if_false, if_neg hk]

/-- C1: for every video sequence and every episode pattern, looking any key up
in the map built by format_video_by_ep_collection_with_pattern returns
exactly the last file in sequence order whose stem matches the pattern with
that key captured; consequently a key is absent exactly when no file in the
sequence captures it (unmatched files are dropped, repeated keys keep the
last file, with no error). -/
theorem format_video_by_ep_lookup_eq_last_match (videos : List PyPath) (pat : EpPattern)
    (k : String) :
    dictLookup (format_video_by_ep_collection_with_pattern videos pat) k =
      (videos.filter (fun v => pat (pyStem v.name) = some k)).getLast? ∧
    (dictLookup (format_video_by_ep_collection_with_pattern videos pat) k = none ↔
      ∀ v ∈ videos, pat (pyStem v.name) ≠ some k) := by
  have heq : dictLookup (format_video_by_ep_collection_with_pattern videos pat) k =
      (videos.filter (fun v => pat (pyStem v.name) = some k)).getLast? := by
    rw [format_video_by_ep_collection_with_pattern, formatVideoByEpAux_lookup]
    cases (videos.filter (fun v => pat (pyStem v.name) = some k)).getLast? <;> rfl
  refine ⟨heq, ?_⟩
  rw [heq, List.getLast?_eq_none_iff, List.filter_eq_nil_iff]
  simp

/-- Inner subtitle planning emits no mutating effect. -/
theorem planTracksSub_effects_shape (v : PyPath) (tgt? : Option EpDict) (pat : EpPattern)
    (probe : PyPath → Int → String) :
    ∀ (tracks : List (Int × String)) (e : Effect),
      e ∈ (planTracksSub v tgt? pat probe tracks).1 → isMutatingEffect e = false
  | [], e, he => absurd he (List.not_mem_nil e)
  | (track, lang) :: rest, e, he => by
    rw [planTracksSub] at he
    cases hs : get_sub_stem tgt? pat v with
    | error err => rw [hs] at he; exact absurd he (List.not_mem_nil e)
    | ok stem =>
      rw [hs] at he
      cases hfmt : sub_format_of_codec (probe v track) with
      | error err => rw [hfmt] at he; exact absurd he (List.not_mem_nil e)
      | ok fmt =>
        rw [hfmt] at he
        cases hrec : planTracksSub v tgt? pat probe rest with
        | mk effs1 p =>
          obtain ⟨cmds1, err1⟩ := p
          rw [hrec] at he
          rcases List.mem_cons.mp he with h | h
          · subst h; rfl
          · exact planTracksSub_effects_shape v tgt? pat probe rest e (by rw [hrec]; exact h)

/-- Outer subtitle planning emits no mutating effect. -/
theorem planVideosSub_effects_shape (tracks : List (Int × String)) (tgt? : Option EpDict)
    (pat : EpPattern) (probe : PyPath → Int → String) :
    ∀ (videos : List PyPath) (e : Effect),
      e ∈ (planVideosSub tracks tgt? pat probe videos).1 → isMutatingEffect e = false
  | [], e, he => absurd he (List.not_mem_nil e)
  | v :: rest, e, he => by
    rw [planVideosSub] at he
    cases hp : planTracksSub v tgt? pat probe tracks with
    | mk effs1 p =>
      obtain ⟨cmds1, err1⟩ := p
      rw [hp] at he
      cases err1 with
      | some err =>
        rcases List.mem_cons.mp he with h | h
        · subst h; rfl
        · exact planTracksSub_effects_shape v tgt? pat probe tracks e (by rw [hp]; exact h)
      | none =>
        cases hrec : planVideosSub tracks tgt? pat probe rest with
        | mk effs2 p2 =>
          obtain ⟨cmds2, err2⟩ := p2
          rw [hrec] at he
          rcases List.mem_cons.mp he with h | h
          · subst h; rfl
          · rcases List.mem_append.mp h with h2 | h2
            · exact planTracksSub_effects_shape v tgt? pat probe tracks e (by rw [hp]; exact h2)
            · exact planVideosSub_effects_shape tracks tgt? pat probe rest e
                (by rw [hrec]; exact h2)

/-- Every effect the font planning loop emits is a command echo. -/
theorem fontsPlanAux_effects_shape (resolve : PyPath → String) :
    ∀ (videos : List PyPath) (fd? : Option PyPath) (e : Effect),
      e ∈ (fontsPlanAux resolve videos fd?).2.1 → ∃ cmd, e = Effect.printCmd cmd
  | [], fd?, e, he => absurd he (List.not_mem_nil e)
  | v :: rest, fd?, e, he => by
    rw [fontsPlanAux] at he
    cases hrec : fontsPlanAux resolve rest (some (fd?.getD (v.withName "fonts"))) with
    | mk fdF p =>
      obtain ⟨effs, cmds⟩ := p
      rw [hrec] at he
      rcases List.mem_cons.mp he with h | h
      · exact ⟨font_extract_cmd resolve v, h⟩
      · exact fontsPlanAux_effects_shape resolve rest (some (fd?.getD (v.withName "fonts"))) e
          (by rw [hrec]; exact h)

/-- The font directory threaded through the planning loop is the one it
starts with, once set. -/
theorem fontsPlanAux_fd (resolve : PyPath → String) :
    ∀ (videos : List PyPath) (fd : PyPath),
      (fontsPlanAux resolve videos (some fd)).1 = some fd
  | [], fd => rfl
  | v :: rest, fd => by
    rw [fontsPlanAux]
    simp only [Option.getD_some]
    cases hrec : fontsPlanAux resolve rest (some fd) with
    | mk fdF p =>
      obtain ⟨effs, cmds⟩ := p
      have ih := fontsPlanAux_fd resolve rest fd
      rw [hrec] at ih
      simpa using ih

/-- The destination directory after planning a non-empty collection is the
supplied one, defaulted to the first file's sibling named fonts. -/
theorem fontsPlanAux_head_fd (resolve : PyPath → String) (v : PyPath) (vs : List PyPath)
    (fd? : Option PyPath) :
    (fontsPlanAux resolve (v :: vs) fd?).1 = some (fd?.getD (v.withName "fonts")) := by
  rw [fontsPlanAux]
  cases hrec : fontsPlanAux resolve vs (some (fd?.getD (v.withName "fonts"))) with
  | mk fdF p =>
    obtain ⟨effs, cmds⟩ := p
    have h := fontsPlanAux_fd resolve vs (fd?.getD (v.withName "fonts"))
    rw [hrec] at h
    simpa using h

/-- Closed form of extract_fonts on a non-empty collection: the destination
is the supplied directory, defaulted to the first file's sibling named fonts,
and the run is the planning echoes, the prompt, and then, on acceptance,
either the command runs (directory already present), the FileExistsError
(path present as a non-directory), or the directory creation followed by the
command runs. -/
theorem extract_fonts_run_eq (v : PyPath) (vs : List PyPath) (fd? : Option PyPath)
    (resolve : PyPath → String) (isDir existsFs : String → Bool) (userInput : String) :
    extract_fonts_run (v :: vs) fd? resolve isDir existsFs userInput =
      (let dirStr := pyPathStr (fd?.getD (v.withName "fonts"))
       let effs := (fontsPlanAux resolve (v :: vs) fd?).2.1 ++
         [Effect.promptUser ("Extract font to folder \"" ++ dirStr ++ "?\"")]
       let pending := (fontsPlanAux resolve (v :: vs) fd?).2.2
       if prompt_for_user_confirmation userInput then
         if isDir dirStr then (effs ++ pending.map (Effect.runCmdIn dirStr), none)
         else if existsFs dirStr then (effs, some (.fileExistsError dirStr))
         else (effs ++ [Effect.makeDir dirStr 755 true true]
                    ++ pending.map (Effect.runCmdIn dirStr), none)
       else (effs, none)) := by
  have hfd := fontsPlanAux_head_fd resolve v vs fd?
  rw [extract_fonts_run]
  cases hfp : fontsPlanAux resolve (v :: vs) fd? with
  | mk fdF p =>
    obtain ⟨effs, pending⟩ := p
    rw [hfp] at hfd
    simp only at hfd
    subst hfd
    simp only [hfp, if_neg (List.cons_ne_nil v vs)]

/-- C5: when the confirmation prompt returns false, none of the three batches
performs any mutating effect: no planned command is executed, no directory
is created, no rename is applied; the pending plans are discarded and only
read-only effects (prints, stream probes, the prompt) appear in the trace. -/
theorem rejection_leaves_state_unchanged (userInput : String)
    (hrej : prompt_for_user_confirmation userInput = false)
    (videos : List PyPath) (tracks : List (Int × String)) (tgt? : Option EpDict)
    (pat : EpPattern) (probe : PyPath → Int → String)
    (fvideos : List PyPath) (fontDir? : Option PyPath) (resolve : PyPath → String)
    (isDir existsFs : String → Bool)
    (epMap : EpDict) (subFiles : List PyPath) (spat : EpPattern) (lang : String) :
    (extract_subtitles_run videos tracks tgt? pat probe userInput).1.filter
      isMutatingEffect = [] ∧
    (extract_fonts_run fvideos fontDir? resolve isDir existsFs userInput).1.filter
      isMutatingEffect = [] ∧
    (rename_subtitles_run epMap subFiles spat lang userInput).filter
      isMutatingEffect = [] := by
  refine ⟨?_, ?_, ?_⟩
  · rw [extract_subtitles_run]
    cases hp : planVideosSub tracks tgt? pat probe videos with
    | mk effs p =>
      obtain ⟨pending, err?⟩ := p
      cases err? with
      | some e =>
        refine List.filter_eq_nil_iff.mpr ?_
        intro a ha
        simp only [Bool.not_eq_true]
        exact planVideosSub_effects_shape tracks tgt? pat probe videos a (by rw [hp]; exact ha)
      | none =>
        simp only [hrej, Bool.false_eq_true, if_false]
        refine List.filter_eq_nil_iff.mpr ?_
        intro a ha
        simp only [Bool.not_eq_true]
        rcases List.mem_append.mp ha with h | h
        · exact planVideosSub_effects_shape tracks tgt? pat probe videos a (by rw [hp]; exact h)
        · rw [List.mem_singleton.mp h]; rfl
  · cases fvideos with
    | nil => rfl
    | cons v vs =>
      rw [extract_fonts_run_eq]
      simp only [hrej, Bool.false_eq_true, if_false]
      refine List.filter_eq_nil_iff.mpr ?_
      intro a ha
      simp only [Bool.not_eq_true]
      rcases List.mem_append.mp ha with h | h
      · obtain ⟨cmd, rfl⟩ := fontsPlanAux_effects_shape resolve (v :: vs) fontDir? a h
        rfl
      · rw [List.mem_singleton.mp h]; rfl
  · simp only [rename_subtitles_run, hrej, Bool.false_eq_true, if_false]
    refine List.filter_eq_nil_iff.mpr ?_
    intro a ha
    simp only [Bool.not_eq_true]
    rcases List.mem_cons.mp ha with h | h
    · subst h; rfl
    · rcases List.mem_append.mp h with h2 | h2
      · obtain ⟨p, hp, rfl⟩ := List.mem_map.mp h2
        rfl
      · rw [List.mem_singleton.mp h2]; rfl

/-- Witness for the rejection claim: the input n is rejected by the gate and
every batch trace at concrete inputs contains no mutating effect. -/
theorem rejection_leaves_state_unchanged_witness :
    (extract_subtitles_run [⟨"", "A 01 B.mkv"⟩] [((1 : Int), "ja")] none simple_ep_pattern
      (fun _ _ => "ass") "n").1.filter isMutatingEffect = [] ∧
    (extract_fonts_run [⟨"d", "a.mkv"⟩] none pyPathStr (fun _ => false) (fun _ => false)
      "n").1.filter isMutatingEffect = [] ∧
    (rename_subtitles_run [("02", ⟨"", "Ep02.mkv"⟩)] [⟨"", "[A][02]x.ass"⟩]
      bracket_ep_pattern "" "n").filter isMutatingEffect = [] :=
  rejection_leaves_state_unchanged "n" (by decide) [⟨"", "A 01 B.mkv"⟩] [((1 : Int), "ja")]
    none simple_ep_pattern (fun _ _ => "ass") [⟨"d", "a.mkv"⟩] none pyPathStr
    (fun _ => false) (fun _ => false) [("02", ⟨"", "Ep02.mkv"⟩)] [⟨"", "[A][02]x.ass"⟩]
    bracket_ep_pattern ""

/-- C6, amended: with no explicit font directory argument and a non-empty
collection, the destination is derived once from the first file as its
sibling directory with the constant name fonts (not a name containing the
stem), and every directory-creating or command-running effect of the whole
batch targets exactly that one directory. -/
theorem extract_fonts_dir_derivation (v : PyPath) (vs : List PyPath)
    (resolve : PyPath → String) (isDir existsFs : String → Bool) (userInput : String) :
    (v.withName "fonts").name = "fonts" ∧
    ((extract_fonts_run (v :: vs) none resolve isDir existsFs userInput).1.filter
      (fun e =>
        match e with
        | Effect.runCmdIn d _ => decide (d ≠ pyPathStr (v.withName "fonts"))
        | Effect.makeDir d _ _ _ => decide (d ≠ pyPathStr (v.withName "fonts"))
        | _ => false)) = [] := by
  refine ⟨rfl, ?_⟩
  rw [extract_fonts_run_eq]
  simp only [Option.getD_none]
  have hplan : ∀ a ∈ (fontsPlanAux resolve (v :: vs) none).2.1,
      (match a with
        | Effect.runCmdIn d _ => decide (d ≠ pyPathStr (v.withName "fonts"))
        | Effect.makeDir d _ _ _ => decide (d ≠ pyPathStr (v.withName "fonts"))
        | _ => false) = false := by
    intro a ha
    obtain ⟨cmd, rfl⟩ := fontsPlanAux_effects_shape resolve (v :: vs) none a ha
    rfl
  have hruns : ∀ a ∈ ((fontsPlanAux resolve (v :: vs) none).2.2).map
      (Effect.runCmdIn (pyPathStr (v.withName "fonts"))),
      (match a with
        | Effect.runCmdIn d _ => decide (d ≠ pyPathStr (v.withName "fonts"))
        | Effect.makeDir d _ _ _ => decide (d ≠ pyPathStr (v.withName "fonts"))
        | _ => false) = false := by
    intro a ha
    obtain ⟨cmd, hcmd, rfl⟩ := List.mem_map.mp ha
    simp
  cases hconf : prompt_for_user_confirmation userInput with
  | false =>
    refine List.filter_eq_nil_iff.mpr ?_
    intro a ha
    simp only [Bool.not_eq_true]
    rcases List.mem_append.mp ha with h | h
    · exact hplan a h
    · rw [List.mem_singleton.mp h]
  | true =>
    cases hdir : isDir (pyPathStr (v.withName "fonts")) with
    | true =>
      refine List.filter_eq_nil_iff.mpr ?_
      intro a ha
      simp only [Bool.not_eq_true]
      rcases List.mem_append.mp ha with h | h
      · rcases List.mem_append.mp h with h2 | h2
        · exact hplan a h2
        · rw [List.mem_singleton.mp h2]
      · exact hruns a h
    | false =>
      cases hex : existsFs (pyPathStr (v.withName "fonts")) with
      | true =>
        refine List.filter_eq_nil_iff.mpr ?_
        intro a ha
        simp only [Bool.not_eq_true]
        rcases List.mem_append.mp ha with h | h
        · exact hplan a h
        · rw [List.mem_singleton.mp h]
      | false =>
        refine List.filter_eq_nil_iff.mpr ?_
        intro a ha
        simp only [Bool.not_eq_true]
        rcases List.mem_append.mp ha with h | h
        · rcases List.mem_append.mp h with h2 | h2
          · rcases List.mem_append.mp h2 with h3 | h3
            · exact hplan a h3
            · rw [List.mem_singleton.mp h3]
          · rw [List.mem_singleton.mp h2]; simp
        · exact hruns a h

/-- C7, amended: after confirmation, when the destination path is not a
directory but exists (as a non-directory), mkdir raises FileExistsError and
no extraction command runs; when the path does not exist, the directory is
created with mode 755, parents true and exist_ok true (recursively), after
the prompt and before every extraction command; when the path already is a
directory, creation is skipped entirely and the batch proceeds without
error. -/
theorem extract_fonts_mkdir_behavior (v : PyPath) (vs : List PyPath) (fd? : Option PyPath)
    (resolve : PyPath → String) (isDir existsFs : String → Bool) (userInput : String)
    (hconf : prompt_for_user_confirmation userInput = true) :
    (isDir (pyPathStr (fd?.getD (v.withName "fonts"))) = false →
     existsFs (pyPathStr (fd?.getD (v.withName "fonts"))) = true →
      extract_fonts_run (v :: vs) fd? resolve isDir existsFs userInput =
        ((fontsPlanAux resolve (v :: vs) fd?).2.1 ++
          [Effect.promptUser ("Extract font to folder \"" ++
            pyPathStr (fd?.getD (v.withName "fonts")) ++ "?\"")],
         some (.fileExistsError (pyPathStr (fd?.getD (v.withName "fonts")))))) ∧
    (isDir (pyPathStr (fd?.getD (v.withName "fonts"))) = false →
     existsFs (pyPathStr (fd?.getD (v.withName "fonts"))) = false →
      extract_fonts_run (v :: vs) fd? resolve isDir existsFs userInput =
        ((fontsPlanAux resolve (v :: vs) fd?).2.1 ++
          [Effect.promptUser ("Extract font to folder \"" ++
            pyPathStr (fd?.getD (v.withName "fonts")) ++ "?\"")] ++
          [Effect.makeDir (pyPathStr (fd?.getD (v.withName "fonts"))) 755 true true] ++
          ((fontsPlanAux resolve (v :: vs) fd?).2.2).map
            (Effect.runCmdIn (pyPathStr (fd?.getD (v.withName "fonts")))),
         none)) ∧
    (isDir (pyPathStr (fd?.getD (v.withName "fonts"))) = true →
      extract_fonts_run (v :: vs) fd? resolve isDir existsFs userInput =
        ((fontsPlanAux resolve (v :: vs) fd?).2.1 ++
          [Effect.promptUser ("Extract font to folder \"" ++
            pyPathStr (fd?.getD (v.withName "fonts")) ++ "?\"")] ++
          ((fontsPlanAux resolve (v :: vs) fd?).2.2).map
            (Effect.runCmdIn (pyPathStr (fd?.getD (v.withName "fonts")))),
         none)) := by
  refine ⟨?_, ?_, ?_⟩
  · intro h1 h2
    rw [extract_fonts_run_eq]
    simp [hconf, h1, h2]
  · intro h1 h2
    rw [extract_fonts_run_eq]
    simp [hconf, h1, h2, List.append_assoc]
  · intro h1
    rw [extract_fonts_run_eq]
    simp [hconf, h1, List.append_assoc]

/-- Witness for the font-directory creation claim: a pre-existing
non-directory path at the destination makes the confirmed batch stop with
FileExistsError after the prompt and before any extraction command. -/
theorem extract_fonts_mkdir_behavior_witness :
    extract_fonts_run [⟨"d", "a.mkv"⟩] none pyPathStr (fun _ => false) (fun _ => true) "" =
      ([Effect.printCmd ["ffmpeg", "-dump_attachment:t", "", "-n", "-i", "d/a.mkv"],
        Effect.promptUser "Extract font to folder \"d/fonts?\""],
       some (.fileExistsError "d/fonts")) := by
  have h := (extract_fonts_mkdir_behavior ⟨"d", "a.mkv"⟩ [] none pyPathStr
    (fun _ => false) (fun _ => true) "" rfl).1 rfl rfl
  exact h.trans (by decide)

/-- C8: for the empty video collection, extract_fonts produces an empty plan,
performs no effect at all (no directory creation, no command, no prompt),
whatever font directory argument, filesystem state and user input. -/
theorem extract_fonts_empty_noop (fontDir? : Option PyPath) (resolve : PyPath → String)
    (isDir existsFs : String → Bool) (userInput : String) :
    extract_fonts_run [] fontDir? resolve isDir existsFs userInput = ([], none) ∧
    fontsPlanAux resolve [] fontDir? = (fontDir?, [], []) :=
  ⟨rfl, rfl⟩

/-- C10: two distinct subtitle files whose stems both capture the key 02,
present in the episode map, are both planned onto the identical new name
Ep02.ass, both pairs are printed, and on confirmation both renames are
performed in list order onto the same destination name, with no
duplicate-target check. -/
theorem rename_collision_undetected :
    rename_subtitles_run [("02", ⟨"", "Ep02.mkv"⟩)]
      [⟨"", "[A][02]x.ass"⟩, ⟨"", "[B][02]y.ass"⟩] bracket_ep_pattern "" "Y" =
      [Effect.printLine "Subtitles matched; Subtitles new name:",
       Effect.printRenamePair "[A][02]x.ass" "Ep02.ass",
       Effect.printRenamePair "[B][02]y.ass" "Ep02.ass",
       Effect.promptUser "Apply renaming?",
       Effect.renameFile "[A][02]x.ass" "Ep02.ass",
       Effect.renameFile "[B][02]y.ass" "Ep02.ass"] := by
  decide

/-- C2: the subtitle-extraction planner as written can never complete on a
non-empty origin collection: _get_video_info runs ffprobe without capturing
stdout and hands the resulting None to json.loads, an unconditional
TypeError, so the first origin video crashes the run with zero commands
planned, printed, prompted for or executed, and in particular no mutating
effect occurs; the claimed command count of origin files times tracks times
formats is unrealizable for any non-empty collection. -/
theorem extract_subtitles_crashes_on_nonempty (v : PyPath) (vs : List PyPath)
    (tracks : List (Int × String)) (tgt? : Option EpDict) (pat : EpPattern)
    (userInput : String) :
    extract_subtitles_actual_run (v :: vs) tracks tgt? pat userInput =
      ([Effect.probeStreams (pyPathStr v)], some PyErr.typeError) ∧
    (extract_subtitles_actual_run (v :: vs) tracks tgt? pat userInput).1.filter
      isMutatingEffect = [] :=
  ⟨rfl, rfl⟩

/-- C4, counterexample: a supplied but empty target episode map is falsy in
Python, so although the origin stem matches the pattern and the captured key
02 is absent from the map, the output stem falls back to the origin stem
instead of propagating a lookup error. -/
theorem get_sub_stem_empty_map_counterexample :
    bracket_ep_pattern (pyStem "[A][02]x.mkv") = some "02" ∧
    dictLookup [] "02" = none ∧
    get_sub_stem (some []) bracket_ep_pattern ⟨"", "[A][02]x.mkv"⟩ = .ok "[A][02]x" :=
  ⟨by decide, rfl, rfl⟩

/-- C3: the renamer new-name computation agrees with the specification
formula: for a subtitle file whose stem matches the subtitle pattern with a
captured key present in the episode map, the planned name is the matched
video stem plus a dot, the language tag and the subtitle final suffix when a
non-empty language tag is supplied, and the video stem plus the full
original suffix chain of the subtitle when the language tag is empty. -/
theorem rename_new_name_matches_spec (epMap : EpDict) (pat : EpPattern) (lang : String)
    (f : PyPath) (key : String) (video : PyPath)
    (hm : pat (pyStem f.name) = some key) (hl : dictLookup epMap key = some video) :
    sub_new_name epMap pat lang f = some (specNewName video lang f) := by
  simp only [sub_new_name, hm, hl, specNewName]
  by_cases h : lang = "" <;> simp [h, String.append_assoc]

/-- Witness for the renamer name computation, which is also the worked
example of the claim: subtitle [Group][02]Title.ass, bracketed two-digit
pattern, episode map sending 02 to a video of stem Ep02, empty language tag,
proposed name Ep02.ass. -/
theorem rename_new_name_matches_spec_witness :
    sub_new_name [("02", ⟨"", "Ep02.mkv"⟩)] bracket_ep_pattern ""
      ⟨"", "[Group][02]Title.ass"⟩ = some "Ep02.ass" := by
  have h := rename_new_name_matches_spec [("02", ⟨"", "Ep02.mkv"⟩)] bracket_ep_pattern ""
    ⟨"", "[Group][02]Title.ass"⟩ "02" ⟨"", "Ep02.mkv"⟩ (by decide) (by decide)
  rw [h]
  decide

/-- C4, amended: with a supplied non-empty target episode map, an origin file
whose stem matches the origin pattern but whose captured key is absent from
the map makes the output-stem computation propagate a KeyError carrying that
key; the fallback to the origin stem occurs when the pattern does not match,
when no target map is supplied, or when the supplied map is empty. -/
theorem get_sub_stem_lookup_miss_fatal (tgt : EpDict) (pat : EpPattern) (v : PyPath) :
    (∀ key, tgt ≠ [] → pat (pyStem v.name) = some key → dictLookup tgt key = none →
      get_sub_stem (some tgt) pat v = .error (.keyError key)) ∧
    (tgt ≠ [] → pat (pyStem v.name) = none →
      get_sub_stem (some tgt) pat v = .ok (pyStem v.name)) ∧
    get_sub_stem none pat v = .ok (pyStem v.name) ∧
    get_sub_stem (some []) pat v = .ok (pyStem v.name) := by
  refine ⟨?_, ?_, rfl, rfl⟩
  · intro key hne hm hmiss
    simp [get_sub_stem, hne, hm, hmiss]
  · intro hne hm
    simp [get_sub_stem, hne, hm]

/-- Witness for the lookup-miss claim: a one-entry map for key 01 and an
origin stem capturing 02 produce the KeyError for 02. -/
theorem get_sub_stem_lookup_miss_fatal_witness :
    get_sub_stem (some [("01", ⟨"", "E01.mkv"⟩)]) bracket_ep_pattern
      ⟨"", "[A][02]x.mkv"⟩ = .error (.keyError "02") :=
  (get_sub_stem_lookup_miss_fatal [("01", ⟨"", "E01.mkv"⟩)] bracket_ep_pattern
    ⟨"", "[A][02]x.mkv"⟩).1 "02" (by decide) (by decide) (by decide)

/-- C6, counterexample: the destination directory of font extraction is the
sibling named by the constant string fonts, not a name of the form
fonts-stem; for a video of stem Ep 01 v2 the directory created and targeted
is d/fonts and not d/fonts-Ep 01 v2. -/
theorem extract_fonts_dir_name_counterexample :
    extract_fonts_run [⟨"d", "Ep 01 v2.mkv"⟩] none pyPathStr (fun _ => false)
        (fun _ => false) "Y" =
      ([Effect.printCmd ["ffmpeg", "-dump_attachment:t", "", "-n", "-i", "d/Ep 01 v2.mkv"],
        Effect.promptUser "Extract font to folder \"d/fonts?\"",
        Effect.makeDir "d/fonts" 755 true true,
        Effect.runCmdIn "d/fonts" ["ffmpeg", "-dump_attachment:t", "", "-n", "-i", "d/Ep 01 v2.mkv"]],
       none) ∧
    "fonts" ≠ "fonts-" ++ pyStem "Ep 01 v2.mkv" := by
  decide

/-- C7, counterexample: when the destination directory already exists as a
directory at confirmation time, the guard skips mkdir entirely and the batch
proceeds silently with no error, contradicting that a pre-existing directory
makes directory creation fail loudly. -/
theorem extract_fonts_existing_dir_counterexample :
    extract_fonts_run [⟨"d", "a.mkv"⟩] none pyPathStr (fun _ => true) (fun _ => true) "Y" =
      ([Effect.printCmd ["ffmpeg", "-dump_attachment:t", "", "-n", "-i", "d/a.mkv"],
        Effect.promptUser "Extract font to folder \"d/fonts?\"",
        Effect.runCmdIn "d/fonts" ["ffmpeg", "-dump_attachment:t", "", "-n", "-i", "d/a.mkv"]],
       none) := by
  decide

/-- C9, counterexample: the stem of a\nb 12 c contains two digits flanked by
whitespace, yet the default pattern does not match it, because the leading
greedy dot-star of the compiled regex cannot cross the newline. -/
theorem simple_ep_pattern_newline_counterexample :
    specHasFlankedDigits "a\nb 12 c".toList = true ∧
    simple_ep_pattern "a\nb 12 c" = none := by
  decide

/-- An epTryHere success is exactly a leading whitespace, two digits,
whitespace decomposition capturing the digits. -/
theorem epTryHere_some (l : List Char) (g : String) (h : epTryHere l = some g) :
    ∃ w d1 d2 w2 rest, l = w :: d1 :: d2 :: w2 :: rest ∧ isPyWS w = true ∧
      isPyDigit d1 = true ∧ isPyDigit d2 = true ∧ isPyWS w2 = true ∧
      g = String.mk [d1, d2] := by
  rcases l with _ | ⟨w, _ | ⟨d1, _ | ⟨d2, _ | ⟨w2, rest⟩⟩⟩⟩
  · simp [epTryHere] at h
  · simp [epTryHere] at h
  · simp [epTryHere] at h
  · simp [epTryHere] at h
  · rw [epTryHere] at h
    by_cases hc : (isPyWS w && isPyDigit d1 && isPyDigit d2 && isPyWS w2) = true
    · rw [if_pos hc] at h
      simp only [Bool.and_eq_true] at hc
      obtain ⟨⟨⟨hw, hd1⟩, hd2⟩, hw2⟩ := hc
      exact ⟨w, d1, d2, w2, rest, rfl, hw, hd1, hd2, hw2, (Option.some_inj.mp h).symm⟩
    · rw [if_neg hc] at h
      exact absurd h (by simp)

/-- A leading flanked decomposition makes epTryHere capture the digit pair. -/
theorem epTryHere_of_head (w d1 d2 w2 : Char) (rest : List Char)
    (hw : isPyWS w = true) (hd1 : isPyDigit d1 = true) (hd2 : isPyDigit d2 = true)
    (hw2 : isPyWS w2 = true) :
    epTryHere (w :: d1 :: d2 :: w2 :: rest) = some (String.mk [d1, d2]) := by
  simp [epTryHere, hw, hd1, hd2, hw2]

/-- Soundness of the default pattern matcher: a match yields a flanked
decomposition with a newline-free prefix, capturing the digit pair. -/
theorem simpleEpMatchList_some : ∀ (l : List Char) (g : String),
    simpleEpMatchList l = some g → FlankedDecomp l g
  | [], g, h => by simp [simpleEpMatchList] at h
  | c :: rest, g, h => by
    rw [simpleEpMatchList] at h
    by_cases hc : c = '\n'
    · rw [if_pos hc] at h
      obtain ⟨w, d1, d2, w2, rest2, heq, hw, hd1, hd2, hw2, hg⟩ := epTryHere_some _ _ h
      exact ⟨[], w, d1, d2, w2, rest2, heq, by simp, hw, hd1, hd2, hw2, hg⟩
    · rw [if_neg hc] at h
      cases hr : simpleEpMatchList rest with
      | some g0 =>
        rw [hr] at h
        simp only [Option.some.injEq] at h
        subst h
        obtain ⟨pre, w, d1, d2, w2, rest2, heq, hpre, hw, hd1, hd2, hw2, hg⟩ :=
          simpleEpMatchList_some rest g0 hr
        refine ⟨c :: pre, w, d1, d2, w2, rest2, by simp [heq], ?_, hw, hd1, hd2, hw2, hg⟩
        intro x hx
        rcases List.mem_cons.mp hx with h2 | h2
        · subst h2; exact hc
        · exact hpre x h2
      | none =>
        rw [hr] at h
        obtain ⟨w, d1, d2, w2, rest2, heq, hw, hd1, hd2, hw2, hg⟩ := epTryHere_some _ _ h
        exact ⟨[], w, d1, d2, w2, rest2, heq, by simp, hw, hd1, hd2, hw2, hg⟩

/-- Completeness of the default pattern matcher: when it does not match, no
flanked decomposition with a newline-free prefix exists. -/
theorem simpleEpMatchList_none : ∀ (l : List Char),
    simpleEpMatchList l = none → ∀ g, ¬ FlankedDecomp l g
  | [], _, g, hd => by
    obtain ⟨pre, w, d1, d2, w2, rest2, heq, -⟩ := hd
    exact absurd heq (by simp)
  | c :: rest, h, g, hd => by
    rw [simpleEpMatchList] at h
    obtain ⟨pre, w, d1, d2, w2, rest2, heq, hpre, hw, hd1, hd2, hw2, hg⟩ := hd
    by_cases hc : c = '\n'
    · rw [if_pos hc] at h
      cases pre with
      | nil =>
        simp only [List.nil_append] at heq
        rw [heq, epTryHere_of_head w d1 d2 w2 rest2 hw hd1 hd2 hw2] at h
        exact absurd h (by simp)
      | cons p ps =>
        rw [List.cons_append] at heq
        injection heq with hcp hrest
        exact (hpre p (List.mem_cons_self p ps)) (by rw [← hcp]; exact hc)
    · rw [if_neg hc] at h
      cases hr : simpleEpMatchList rest with
      | some g0 => rw [hr] at h; simp at h
      | none =>
        rw [hr] at h
        cases pre with
        | nil =>
          simp only [List.nil_append] at heq
          rw [heq, epTryHere_of_head w d1 d2 w2 rest2 hw hd1 hd2 hw2] at h
          exact absurd h (by simp)
        | cons p ps =>
          rw [List.cons_append] at heq
          injection heq with hcp hrest
          exact simpleEpMatchList_none rest hr g
            ⟨ps, w, d1, d2, w2, rest2, hrest,
             fun x hx => hpre x (List.mem_cons_of_mem p hx), hw, hd1, hd2, hw2, hg⟩

/-- C9, amended: the default episode pattern matches a stem exactly when the
stem decomposes as a newline-free prefix followed by a whitespace character,
two digits and a whitespace character (the leading greedy dot-star of the
compiled regex cannot cross a newline), and in that case capture group 1 is
the digit pair of such an occurrence. -/
theorem simple_ep_pattern_characterization (s : String) :
    ((simple_ep_pattern s).isSome = true ↔ ∃ g, FlankedDecomp s.toList g) ∧
    ∀ g, simple_ep_pattern s = some g → FlankedDecomp s.toList g := by
  constructor
  · constructor
    · intro h
      cases hm : simpleEpMatchList s.toList with
      | none =>
        rw [show simple_ep_pattern s = simpleEpMatchList s.toList from rfl, hm] at h
        simp at h
      | some g => exact ⟨g, simpleEpMatchList_some _ _ hm⟩
    · rintro ⟨g, hg⟩
      cases hm : simpleEpMatchList s.toList with
      | some g0 =>
        rw [show simple_ep_pattern s = simpleEpMatchList s.toList from rfl, hm]
        rfl
      | none => exact absurd hg (simpleEpMatchList_none _ hm g)
  · intro g h
    exact simpleEpMatchList_some _ _ h

/-- Witness for the pattern characterization: the stem A 01 B matches with
captured group 01, so it carries a flanked decomposition. -/
theorem simple_ep_pattern_characterization_witness :
    FlankedDecomp ("A 01 B").toList "01" :=
  (simple_ep_pattern_characterization "A 01 B").2 "01" (by decide)

end SubtitleTools
